import Mathlib

/-!
Shallow embedding of `src/bin/generate_eip7002_testvectors.py`, the EIP-7002
test-vector generator: the integer exponential approximation
`fake_exponential` and the nested generation of the 70 fixture records.

Python integers are unbounded and non-negative throughout this script, so we
model them with `Nat`.  Python's floor division `//` raises a
`ZeroDivisionError` on divisor `0`; we model that with `Option`: `pydiv a b`
is `none` exactly when Python would raise.
-/

/-- Python floor division on non-negative integers: `a // b`, raising
(modelled as `none`) when `b = 0`. -/
def pydiv (a b : ℕ) : Option ℕ :=
  if b = 0 then none else some (a / b)

/-- The `while numerator_accum > 0` loop of `fake_exponential`, with the loop
state `(i, numerator_accum, output)` passed explicitly.  On exit it returns
the final `output` together with the final value of `i` (so the number of
executed loop-body iterations is the final `i` minus the initial `i`);
`none` marks a `ZeroDivisionError` inside the loop body. -/
def fe_loop (num den i na output : ℕ) : Option (ℕ × ℕ) :=
  if 0 < na then
    match h : pydiv (na * num) (den * i) with
    | none => none
    | some na2 => fe_loop num den (i + 1) na2 (output + na)
  else
    some (output, i)
termination_by (num + 1 - den * i, na)
decreasing_by
  simp only [pydiv] at h
  split at h
  · exact absurd h (by simp)
  · rename_i hden
    obtain ⟨hd, hi⟩ := Nat.mul_ne_zero_iff.mp hden
    injection h with hna2
    have hexp : den * (i + 1) = den * i + den := by ring
    by_cases hcase : den * i ≤ num
    · exact Prod.Lex.left _ _ (by omega)
    · have e1 : num + 1 - den * (i + 1) = 0 := by omega
      have e2 : num + 1 - den * i = 0 := by omega
      rw [e1, e2]
      apply Prod.Lex.right
      subst hna2
      have hmul : na * num < na * (den * i) :=
        mul_lt_mul_of_pos_left (by omega) (by omega)
      exact (Nat.div_lt_iff_lt_mul (by omega)).mpr hmul

/-- `fake_exponential`, stopped just before the final `output // denominator`:
it runs the loop from the initial state `i = 1`, `numerator_accum =
factor * denominator`, `output = 0`, and returns the final `(output, i)`
pair (`none` on a `ZeroDivisionError` inside the loop). -/
def fake_exponential_run (factor numerator denominator : ℕ) : Option (ℕ × ℕ) :=
  fe_loop numerator denominator 1 (factor * denominator) 0

/-- `fake_exponential(factor, numerator, denominator)` from the script:
the EIP-7002 integer approximation of `factor * e^(numerator/denominator)`.
`none` models the Python call raising `ZeroDivisionError`. -/
def fake_exponential (factor numerator denominator : ℕ) : Option ℕ :=
  match fake_exponential_run factor numerator denominator with
  | none => none
  | some (output, _) => pydiv output denominator

/-- `MIN_WITHDRAWAL_REQUEST_FEE = 1` from the script. -/
def MIN_WITHDRAWAL_REQUEST_FEE : ℕ := 1

/-- `WITHDRAWAL_REQUEST_FEE_UPDATE_FRACTION = 17` from the script. -/
def WITHDRAWAL_REQUEST_FEE_UPDATE_FRACTION : ℕ := 17

/-- One record of the `test_vectors` list built by the script. -/
structure TestVector where
  numberOfWithdrawalRequests : ℕ
  baseExcess : ℕ
  baseFee : ℕ
  expectedFee : ℕ
  deriving Repr, DecidableEq

/-- The inner iteration list `[1, 2, 8, 16, 32, 64, 100]` of the generator. -/
def request_counts : List ℕ := [1, 2, 8, 16, 32, 64, 100]

/-- The two nested `for` loops of the script, parameterized by the two
constants the script reads.  `base_fee` is the value of
`fake_exponential(min_fee, 2 ** i, update_fraction)`; that call never raises
for the update fraction `17` used by the script (`fake_exponential_isSome`
below), so projecting out of the `Option` with `getD 0` never supplies the
default there. -/
def gen_vectors (min_fee update_fraction : ℕ) : List TestVector :=
  (List.range 10).flatMap (fun i =>
    request_counts.map (fun number_of_withdrawal_requests =>
      let base_fee := (fake_exponential min_fee (2 ^ i) update_fraction).getD 0
      { numberOfWithdrawalRequests := number_of_withdrawal_requests
        baseExcess := 2 ^ i
        baseFee := base_fee
        expectedFee := base_fee * number_of_withdrawal_requests }))

/-- The `test_vectors` list of the script. -/
def test_vectors : List TestVector :=
  gen_vectors MIN_WITHDRAWAL_REQUEST_FEE WITHDRAWAL_REQUEST_FEE_UPDATE_FRACTION

/-- The `output` dictionary of the script: the vectors plus the constants. -/
structure OutputDoc where
  vectors : List TestVector
  min_withdrawal_request_fee : ℕ
  withdrawal_request_fee_update_fraction : ℕ
  deriving Repr, DecidableEq

/-- A full generator run as a function of the two constants. -/
def generate_output (min_fee update_fraction : ℕ) : OutputDoc :=
  { vectors := gen_vectors min_fee update_fraction
    min_withdrawal_request_fee := min_fee
    withdrawal_request_fee_update_fraction := update_fraction }

/-- The `output` value the script serializes. -/
def output : OutputDoc :=
  generate_output MIN_WITHDRAWAL_REQUEST_FEE WITHDRAWAL_REQUEST_FEE_UPDATE_FRACTION

lemma pydiv_eq_none_iff {a b : ℕ} : pydiv a b = none ↔ b = 0 := by
  simp [pydiv]

lemma pydiv_of_ne_zero {a b : ℕ} (hb : b ≠ 0) : pydiv a b = some (a / b) := by
  simp [pydiv, hb]

lemma fe_loop_eq_step {num den i na output na2 : ℕ} (hna : 0 < na)
    (h : pydiv (na * num) (den * i) = some na2) :
    fe_loop num den i na output = fe_loop num den (i + 1) na2 (output + na) := by
  rw [fe_loop, if_pos hna]
  split
  · rename_i heq
    rw [h] at heq
    cases heq
  · rename_i na2' heq
    rw [h] at heq
    injection heq with h'
    rw [h']

lemma fe_loop_eq_none {num den i na output : ℕ} (hna : 0 < na)
    (h : pydiv (na * num) (den * i) = none) :
    fe_loop num den i na output = none := by
  rw [fe_loop, if_pos hna]
  split
  · rfl
  · rename_i na2' heq
    rw [h] at heq
    cases heq

lemma fe_loop_eq_exit {num den i na output : ℕ} (hna : na = 0) :
    fe_loop num den i na output = some (output, i) := by
  rw [fe_loop]
  simp [hna]

/-- With a positive denominator the loop always terminates without a
`ZeroDivisionError`. -/
lemma fe_loop_isSome (num den : ℕ) (hden : 0 < den) :
    ∀ i na output, 0 < i →
      ∃ r j, fe_loop num den i na output = some (r, j) := by
  intro i na output
  induction i, na, output using fe_loop.induct num den with
  | case1 i na output hna hnone =>
      intro hi
      have := pydiv_eq_none_iff.mp hnone
      have : den * i ≠ 0 := Nat.mul_ne_zero (by omega) (by omega)
      omega
  | case2 i na output hna na2 hsome ih =>
      intro hi
      rw [fe_loop_eq_step hna hsome]
      exact ih (by omega)
  | case3 i na output hna =>
      intro hi
      exact ⟨output, i, fe_loop_eq_exit (by omega)⟩

/-- Every loop iteration only adds to `output`: the final `output` dominates
the current `output + numerator_accum`. -/
lemma fe_loop_le (num den : ℕ) :
    ∀ i na output r j, fe_loop num den i na output = some (r, j) →
      output + na ≤ r := by
  intro i na output
  induction i, na, output using fe_loop.induct num den with
  | case1 i na output hna hnone =>
      intro r j h
      rw [fe_loop_eq_none hna hnone] at h
      cases h
  | case2 i na output hna na2 hsome ih =>
      intro r j h
      rw [fe_loop_eq_step hna hsome] at h
      have := ih r j h
      omega
  | case3 i na output hna =>
      intro r j h
      rw [fe_loop_eq_exit (by omega)] at h
      injection h with h1
      injection h1 with h2 h3
      omega

/-- Monotonicity of the loop: pointwise larger numerator, accumulator and
output produce a final output at least as large. -/
lemma fe_loop_mono (num1 num2 den : ℕ) (hden : 0 < den) (hnum : num1 ≤ num2) :
    ∀ i na2 output2 na1 output1, na1 ≤ na2 → output1 ≤ output2 → 0 < i →
      ∀ r2 j2, fe_loop num2 den i na2 output2 = some (r2, j2) →
        ∃ r1 j1, fe_loop num1 den i na1 output1 = some (r1, j1) ∧ r1 ≤ r2 := by
  intro i na2 output2
  induction i, na2, output2 using fe_loop.induct num2 den with
  | case1 i na2 output2 hna2 hnone =>
      intro na1 output1 hle hout hi r2 j2 h2
      have := pydiv_eq_none_iff.mp hnone
      have : den * i ≠ 0 := Nat.mul_ne_zero (by omega) (by omega)
      omega
  | case2 i na2 output2 hna2 na2' hsome2 ih =>
      intro na1 output1 hle hout hi r2 j2 h2
      rw [fe_loop_eq_step hna2 hsome2] at h2
      have hdi : den * i ≠ 0 := Nat.mul_ne_zero (by omega) (by omega)
      have hna2' : na2' = na2 * num2 / (den * i) := by
        have := pydiv_of_ne_zero (a := na2 * num2) hdi
        rw [this] at hsome2
        injection hsome2 with h'
        omega
      by_cases hna1 : 0 < na1
      · have hsome1 : pydiv (na1 * num1) (den * i) =
            some (na1 * num1 / (den * i)) := pydiv_of_ne_zero hdi
        rw [fe_loop_eq_step hna1 hsome1]
        apply ih _ _ _ _ _ r2 j2 h2
        · rw [hna2']
          exact Nat.div_le_div_right (Nat.mul_le_mul hle hnum)
        · omega
        · omega
      · have h0 : na1 = 0 := by omega
        rw [fe_loop_eq_exit h0]
        refine ⟨output1, i, rfl, ?_⟩
        have := fe_loop_le num2 den (i + 1) na2' (output2 + na2) r2 j2 h2
        omega
  | case3 i na2 output2 hna2 =>
      intro na1 output1 hle hout hi r2 j2 h2
      rw [fe_loop_eq_exit (by omega)] at h2
      injection h2 with h'
      injection h' with hr hj
      have h0 : na1 = 0 := by omega
      rw [fe_loop_eq_exit h0]
      exact ⟨output1, i, rfl, by omega⟩

/-- `fake_exponential` never raises for a positive denominator, and its value
is the final loop output floor-divided by the denominator. -/
lemma fake_exponential_eq_run (factor numerator denominator : ℕ)
    (hd : 0 < denominator) :
    ∃ r j, fake_exponential_run factor numerator denominator = some (r, j) ∧
      fake_exponential factor numerator denominator = some (r / denominator) := by
  obtain ⟨r, j, hr⟩ :=
    fe_loop_isSome numerator denominator hd 1 (factor * denominator) 0 (by omega)
  have hrun : fake_exponential_run factor numerator denominator = some (r, j) := hr
  refine ⟨r, j, hrun, ?_⟩
  unfold fake_exponential
  rw [hrun]
  exact pydiv_of_ne_zero (by omega)

/-- C2: for every non-negative `factor` and `numerator` and positive
`denominator`, `fake_exponential` terminates without raising and returns a
non-negative integer (in this embedding: the loop reaches its exit state and
the result is `some` natural number). -/
theorem C2_fake_exponential_terminates (factor numerator denominator : ℕ)
    (hd : 0 < denominator) :
    ∃ r : ℕ, fake_exponential factor numerator denominator = some r := by
  obtain ⟨r, j, _, hval⟩ := fake_exponential_eq_run factor numerator denominator hd
  exact ⟨r / denominator, hval⟩

theorem C2_witness :
    (0 : ℕ) < 17 ∧ ∃ r : ℕ, fake_exponential 5 21 17 = some r :=
  ⟨by decide, C2_fake_exponential_terminates 5 21 17 (by decide)⟩

/-- C3: zero-numerator identity: `fake_exponential factor 0 denominator`
returns exactly `factor` for positive `denominator`, and when `factor` is
positive the loop body executes exactly once: the run ends at
`output = factor * denominator` with `i = 2` (one increment past the
initial `i = 1`). -/
theorem C3_zero_numerator_identity (factor denominator : ℕ)
    (hd : 0 < denominator) :
    fake_exponential factor 0 denominator = some factor ∧
      (0 < factor →
        fake_exponential_run factor 0 denominator =
          some (factor * denominator, 2)) := by
  by_cases hf : 0 < factor
  · have h1 : pydiv (factor * denominator * 0) (denominator * 1) = some 0 := by
      rw [pydiv_of_ne_zero (by omega)]
      norm_num
    have hrun : fake_exponential_run factor 0 denominator =
        some (factor * denominator, 2) := by
      unfold fake_exponential_run
      rw [fe_loop_eq_step (Nat.mul_pos hf hd) h1, fe_loop_eq_exit rfl]
      norm_num
    refine ⟨?_, fun _ => hrun⟩
    unfold fake_exponential
    rw [hrun]
    show pydiv (factor * denominator) denominator = some factor
    rw [pydiv_of_ne_zero (by omega), Nat.mul_div_cancel _ hd]
  · have h0 : factor = 0 := by omega
    subst h0
    have hrun : fake_exponential_run 0 0 denominator = some (0, 1) := by
      unfold fake_exponential_run
      rw [zero_mul]
      exact fe_loop_eq_exit rfl
    refine ⟨?_, fun h => absurd h (by omega)⟩
    unfold fake_exponential
    rw [hrun]
    show pydiv 0 denominator = some 0
    rw [pydiv_of_ne_zero (by omega), Nat.zero_div]

theorem C3_witness :
    (0 : ℕ) < 13 ∧
      (fake_exponential 4 0 13 = some 4 ∧
        (0 < 4 → fake_exponential_run 4 0 13 = some (4 * 13, 2))) :=
  ⟨by decide, C3_zero_numerator_identity 4 13 (by decide)⟩

/-- C4: `fake_exponential` is monotonically non-decreasing in the numerator
for fixed factor and positive denominator. -/
theorem C4_monotone_in_numerator (factor denominator n1 n2 : ℕ)
    (hd : 0 < denominator) (hn : n1 ≤ n2) :
    ∃ v1 v2, fake_exponential factor n1 denominator = some v1 ∧
      fake_exponential factor n2 denominator = some v2 ∧ v1 ≤ v2 := by
  obtain ⟨r2, j2, hrun2, hval2⟩ := fake_exponential_eq_run factor n2 denominator hd
  obtain ⟨r1, j1, hrun1, hle⟩ :=
    fe_loop_mono n1 n2 denominator hd hn 1 (factor * denominator) 0
      (factor * denominator) 0 le_rfl le_rfl (by omega) r2 j2 hrun2
  have hval1 : fake_exponential factor n1 denominator =
      some (r1 / denominator) := by
    unfold fake_exponential
    rw [show fake_exponential_run factor n1 denominator = some (r1, j1) from hrun1]
    exact pydiv_of_ne_zero (by omega)
  exact ⟨r1 / denominator, r2 / denominator, hval1, hval2,
    Nat.div_le_div_right hle⟩

theorem C4_witness :
    ((0 : ℕ) < 17 ∧ (3 : ℕ) ≤ 40) ∧
      ∃ v1 v2, fake_exponential 2 3 17 = some v1 ∧
        fake_exponential 2 40 17 = some v2 ∧ v1 ≤ v2 :=
  ⟨⟨by decide, by decide⟩, C4_monotone_in_numerator 2 17 3 40 (by decide) (by decide)⟩

/-- C9: lower bound: for a positive denominator the result of
`fake_exponential` is at least `factor`, since the first iteration already
contributes `factor * denominator` to the sum. -/
theorem C9_lower_bound (factor numerator denominator : ℕ)
    (hd : 0 < denominator) :
    ∃ v, fake_exponential factor numerator denominator = some v ∧
      factor ≤ v := by
  obtain ⟨r, j, hrun, hval⟩ := fake_exponential_eq_run factor numerator denominator hd
  have h1 : 0 + factor * denominator ≤ r :=
    fe_loop_le numerator denominator 1 (factor * denominator) 0 r j hrun
  refine ⟨r / denominator, hval, ?_⟩
  have h2 : factor * denominator / denominator ≤ r / denominator :=
    Nat.div_le_div_right (by omega)
  rwa [Nat.mul_div_cancel _ hd] at h2

theorem C9_witness :
    (0 : ℕ) < 17 ∧ ∃ v, fake_exponential 7 9 17 = some v ∧ 7 ≤ v :=
  ⟨by decide, C9_lower_bound 7 9 17 (by decide)⟩

/-- C10: a zero denominator always raises `ZeroDivisionError` (modelled as
`none`): the loop is skipped because the initial accumulator is
`factor * 0 = 0`, and the final `output // denominator` divides by zero. -/
theorem C10_zero_denominator_raises (factor numerator : ℕ) :
    fake_exponential factor numerator 0 = none ∧
      fake_exponential_run factor numerator 0 = some (0, 1) := by
  have hrun : fake_exponential_run factor numerator 0 = some (0, 1) := by
    unfold fake_exponential_run
    rw [mul_zero]
    exact fe_loop_eq_exit rfl
  refine ⟨?_, hrun⟩
  unfold fake_exponential
  rw [hrun]
  rfl

/-- C6: the concrete scenario `fake_exponential(1, 1, 17)`: the loop sums the
terms `17` and `1` (run ends with `output = 18` after two body iterations,
`i` going `1 → 2 → 3`), and the result is `floor(18 / 17) = 1`. -/
theorem C6_concrete_1_1_17 :
    fake_exponential 1 1 17 = some 1 ∧
      fake_exponential_run 1 1 17 = some (18, 3) ∧ (18 : ℕ) / 17 = 1 := by
  have hrun : fake_exponential_run 1 1 17 = some (18, 3) := by
    simp [fake_exponential_run, fe_loop, pydiv]
  refine ⟨?_, hrun, by norm_num⟩
  unfold fake_exponential
  rw [hrun]
  rfl

/-- C8: zero-factor case: with a positive denominator,
`fake_exponential 0 numerator denominator` returns `0` and the loop body
never executes (the run exits immediately with `output = 0` and `i` still
`1`). -/
theorem C8_zero_factor (numerator denominator : ℕ) (hd : 0 < denominator) :
    fake_exponential 0 numerator denominator = some 0 ∧
      fake_exponential_run 0 numerator denominator = some (0, 1) := by
  have hrun : fake_exponential_run 0 numerator denominator = some (0, 1) := by
    unfold fake_exponential_run
    rw [zero_mul]
    exact fe_loop_eq_exit rfl
  refine ⟨?_, hrun⟩
  unfold fake_exponential
  rw [hrun]
  show pydiv 0 denominator = some 0
  rw [pydiv_of_ne_zero (by omega), Nat.zero_div]

theorem C8_witness :
    (0 : ℕ) < 17 ∧
      (fake_exponential 0 512 17 = some 0 ∧
        fake_exponential_run 0 512 17 = some (0, 1)) :=
  ⟨by decide, C8_zero_factor 512 17 (by decide)⟩

/-- C1: every record of `test_vectors` satisfies the invariant
`expectedFee = baseFee * numberOfWithdrawalRequests`, and its `baseFee` is
exactly the value of
`fake_exponential(MIN_WITHDRAWAL_REQUEST_FEE, baseExcess, WITHDRAWAL_REQUEST_FEE_UPDATE_FRACTION)`. -/
theorem C1_vector_invariant (v : TestVector) (hv : v ∈ test_vectors) :
    v.expectedFee = v.baseFee * v.numberOfWithdrawalRequests ∧
      fake_exponential MIN_WITHDRAWAL_REQUEST_FEE v.baseExcess
        WITHDRAWAL_REQUEST_FEE_UPDATE_FRACTION = some v.baseFee := by
  simp only [test_vectors, gen_vectors, List.mem_flatMap, List.mem_map] at hv
  obtain ⟨i, hi, n, hn, rfl⟩ := hv
  refine ⟨rfl, ?_⟩
  obtain ⟨r, j, hrun, hval⟩ :=
    fake_exponential_eq_run MIN_WITHDRAWAL_REQUEST_FEE (2 ^ i)
      WITHDRAWAL_REQUEST_FEE_UPDATE_FRACTION (by decide)
  show fake_exponential MIN_WITHDRAWAL_REQUEST_FEE (2 ^ i)
      WITHDRAWAL_REQUEST_FEE_UPDATE_FRACTION =
    some ((fake_exponential MIN_WITHDRAWAL_REQUEST_FEE (2 ^ i)
      WITHDRAWAL_REQUEST_FEE_UPDATE_FRACTION).getD 0)
  rw [hval]
  rfl

theorem C1_witness :
    (test_vectors.get ⟨0, by decide⟩).expectedFee =
        (test_vectors.get ⟨0, by decide⟩).baseFee *
          (test_vectors.get ⟨0, by decide⟩).numberOfWithdrawalRequests ∧
      fake_exponential MIN_WITHDRAWAL_REQUEST_FEE
          (test_vectors.get ⟨0, by decide⟩).baseExcess
          WITHDRAWAL_REQUEST_FEE_UPDATE_FRACTION =
        some (test_vectors.get ⟨0, by decide⟩).baseFee :=
  C1_vector_invariant _ (List.get_mem _ _ _)

/-- C5: the generator emits exactly 70 records, and record `k` (0-based) of
`test_vectors` has `baseExcess = 2 ^ (k / 7)` and
`numberOfWithdrawalRequests` equal to the `(k % 7)`-th entry of the fixed
inner list `[1, 2, 8, 16, 32, 64, 100]` — the nested generation order. -/
theorem C5_generation_order :
    test_vectors.length = 70 ∧
      ∀ k, k < 70 →
        (test_vectors.getD k ⟨0, 0, 0, 0⟩).baseExcess = 2 ^ (k / 7) ∧
          (test_vectors.getD k ⟨0, 0, 0, 0⟩).numberOfWithdrawalRequests =
            request_counts.getD (k % 7) 0 := by
  refine ⟨by decide, by decide⟩

theorem C5_witness :
    (test_vectors.getD 38 ⟨0, 0, 0, 0⟩).baseExcess = 2 ^ (38 / 7) ∧
      (test_vectors.getD 38 ⟨0, 0, 0, 0⟩).numberOfWithdrawalRequests =
        request_counts.getD (38 % 7) 0 :=
  C5_generation_order.2 38 (by decide)

/-- C7: the generator is a pure function of the two constants: any two runs
with the unchanged constants `MIN_WITHDRAWAL_REQUEST_FEE = 1` and
`WITHDRAWAL_REQUEST_FEE_UPDATE_FRACTION = 17` yield the same output
document — the same vectors list and the same constants — so the serialized
file contents are identical as well. -/
theorem C7_deterministic (d1 d2 : OutputDoc)
    (h1 : generate_output MIN_WITHDRAWAL_REQUEST_FEE
        WITHDRAWAL_REQUEST_FEE_UPDATE_FRACTION = d1)
    (h2 : generate_output MIN_WITHDRAWAL_REQUEST_FEE
        WITHDRAWAL_REQUEST_FEE_UPDATE_FRACTION = d2) :
    d1 = d2 ∧ d1.vectors = d2.vectors ∧
      d1.min_withdrawal_request_fee = d2.min_withdrawal_request_fee ∧
      d1.withdrawal_request_fee_update_fraction =
        d2.withdrawal_request_fee_update_fraction := by
  subst h1
  subst h2
  exact ⟨rfl, rfl, rfl, rfl⟩

theorem C7_witness :
    output = output ∧ output.vectors = output.vectors ∧
      output.min_withdrawal_request_fee = output.min_withdrawal_request_fee ∧
      output.withdrawal_request_fee_update_fraction =
        output.withdrawal_request_fee_update_fraction :=
  C7_deterministic output output rfl rfl
